import Mathlib

/-!
Verification of the node-ws-gameserver room/session engine against its
specification.  The repository ships two behaviour profiles:

* authoritative mode: `src/index.ts` (session router), `room.ts`
  (`src/unnamed/part_000`), protocol `src/unnamed/part_001`;
* relay mode: router `src/unnamed/part_004`, protocol `src/src/protocol.ts`.

Shared: the sliding-window rate limiter `src/src/rate-limit.ts`.

JS `Map`s are modelled as insertion-ordered association lists over `String`
keys; `Date.now()` is an explicit `Nat` argument threaded through every
operation; WebSocket I/O is modelled as a list of explicit effects returned
by each operation; JS numbers occurring in the claims are modelled as `Int`
(no claim depends on floating point).
-/

namespace WsGameServer

/-! ### Association-list maps (JS `Map`: insertion-ordered, first match wins) -/

def lookupA {α : Type} : List (String × α) → String → Option α
  | [], _ => none
  | (k, v) :: rest, key => if k = key then some v else lookupA rest key

def setA {α : Type} : List (String × α) → String → α → List (String × α)
  | [], key, val => [(key, val)]
  | (k, v) :: rest, key, val =>
    if k = key then (k, val) :: rest else (k, v) :: setA rest key val

def eraseA {α : Type} : List (String × α) → String → List (String × α)
  | [], _ => []
  | (k, v) :: rest, key => if k = key then rest else (k, v) :: eraseA rest key

theorem lookupA_setA_self {α : Type} (l : List (String × α)) (k : String) (v : α) :
    lookupA (setA l k v) k = some v := by
  induction l with
  | nil => simp [setA, lookupA]
  | cons hd tl ih =>
    obtain ⟨k', v'⟩ := hd
    by_cases h : k' = k
    · simp [setA, h, lookupA]
    · simp [setA, h, lookupA, ih]

theorem lookupA_setA_ne {α : Type} (l : List (String × α)) (k k' : String) (v : α)
    (h : k' ≠ k) : lookupA (setA l k v) k' = lookupA l k' := by
  induction l with
  | nil =>
    simp [setA, lookupA, Ne.symm h]
  | cons hd tl ih =>
    obtain ⟨k0, v0⟩ := hd
    by_cases h0 : k0 = k
    · subst h0
      simp [setA, lookupA, Ne.symm h]
    · by_cases h1 : k0 = k'
      · simp [setA, h0, lookupA, h1, h]
      · simp [setA, h0, lookupA, h1, ih]

theorem length_setA_of_mem {α : Type} (l : List (String × α)) (k : String) (v w : α)
    (h : lookupA l k = some w) : (setA l k v).length = l.length := by
  induction l with
  | nil => simp [lookupA] at h
  | cons hd tl ih =>
    obtain ⟨k0, v0⟩ := hd
    by_cases h0 : k0 = k
    · simp [setA, h0]
    · simp [lookupA, h0] at h
      simp [setA, h0, ih h]

theorem length_setA_le {α : Type} (l : List (String × α)) (k : String) (v : α) :
    (setA l k v).length ≤ l.length + 1 := by
  induction l with
  | nil => simp [setA]
  | cons hd tl ih =>
    obtain ⟨k0, v0⟩ := hd
    by_cases h0 : k0 = k
    · simp [setA, h0]
    · simp [setA, h0]
      omega

theorem mem_setA {α : Type} (l : List (String × α)) (k : String) (v : α) (x : String × α)
    (h : x ∈ setA l k v) : x = (k, v) ∨ x ∈ l := by
  induction l with
  | nil =>
    simp [setA] at h
    exact Or.inl h
  | cons hd tl ih =>
    obtain ⟨k0, v0⟩ := hd
    by_cases h0 : k0 = k
    · subst h0
      simp [setA] at h
      rcases h with h | h
      · exact Or.inl (by simp [h])
      · exact Or.inr (by simp [h])
    · simp [setA, h0] at h
      rcases h with h | h
      · exact Or.inr (by simp [h])
      · rcases ih h with h' | h'
        · exact Or.inl h'
        · exact Or.inr (by simp [h'])

theorem lookupA_eq_none_of_not_mem {α : Type} (l : List (String × α)) (k : String)
    (h : k ∉ l.map Prod.fst) : lookupA l k = none := by
  induction l with
  | nil => simp [lookupA]
  | cons hd tl ih =>
    obtain ⟨k0, v0⟩ := hd
    simp only [List.map_cons, List.mem_cons, not_or] at h
    simp [lookupA, Ne.symm h.1, ih h.2]

theorem lookupA_eraseA_self {α : Type} (l : List (String × α)) (k : String)
    (hnd : (l.map Prod.fst).Nodup) : lookupA (eraseA l k) k = none := by
  induction l with
  | nil => simp [eraseA, lookupA]
  | cons hd tl ih =>
    obtain ⟨k0, v0⟩ := hd
    simp only [List.map_cons, List.nodup_cons] at hnd
    by_cases h0 : k0 = k
    · subst h0
      simp only [eraseA, if_pos rfl]
      exact lookupA_eq_none_of_not_mem tl k0 hnd.1
    · simp [eraseA, h0, lookupA, ih hnd.2]

theorem lookupA_map {α β : Type} (g : α → β) (l : List (String × α)) (k : String) :
    lookupA (l.map (fun kv => (kv.1, g kv.2))) k = (lookupA l k).map g := by
  induction l with
  | nil => simp [lookupA]
  | cons hd tl ih =>
    obtain ⟨k0, v0⟩ := hd
    by_cases h0 : k0 = k
    · simp [lookupA, h0]
    · simp [lookupA, h0, ih]

/-! ### Wire values

`MValue` models the result of msgpack `decode`: the JS values the codec can
hand back (`nil` = JS `null`, `bin` = `Uint8Array`, `map` = a plain object
with string keys, numbers as `Int`). -/

inductive MValue : Type where
  | nil : MValue
  | bool : Bool → MValue
  | int : Int → MValue
  | str : String → MValue
  | bin : List Nat → MValue
  | arr : List MValue → MValue
  | map : List (String × MValue) → MValue

/-- JS truthiness test on a decoded value (`!msg`). -/
def MValue.isFalsy : MValue → Bool
  | .nil => true
  | .bool b => !b
  | .int n => n == 0
  | .str s => s == ""
  | _ => false

/-- JS `typeof msg === 'object'` on a decoded value (`null`, arrays,
`Uint8Array` and plain objects all have typeof `object`). -/
def MValue.typeofIsObject : MValue → Bool
  | .nil => true
  | .bin _ => true
  | .arr _ => true
  | .map _ => true
  | _ => false

/-- JS `Array.isArray(msg)`. -/
def MValue.isArray : MValue → Bool
  | .arr _ => true
  | _ => false

/-- JS `'type' in msg` on a decoded value. -/
def MValue.hasTypeKey : MValue → Bool
  | .map kvs => (lookupA kvs "type").isSome
  | _ => false

/-- `msg.field` on a decoded object: property access. -/
def mget (kvs : List (String × MValue)) (field : String) : Option MValue :=
  lookupA kvs field

/-- The outcome of the raw msgpack `decode` call: `none` models the library
throwing on malformed bytes, `some v` a successful decode to value `v`. -/
abbrev DecodeOutcome : Type := Option MValue

/-- `decodeMessage` from `src/src/protocol.ts` (relay protocol):
`try { msg = decode(bytes); if (!msg || typeof msg !== 'object' ||
Array.isArray(msg)) return null; return msg } catch { return null }`. -/
def decodeMessage : DecodeOutcome → Option MValue
  | none => none
  | some v =>
    if v.isFalsy || !v.typeofIsObject || v.isArray then none else some v

/-- `decodeMessage` from the authoritative protocol (`src/unnamed/part_001`):
`try { msg = decode(data); if (!msg || typeof msg !== 'object' ||
!('type' in msg)) return null; return msg } catch { return null }`. -/
def decodeMessageAuth : DecodeOutcome → Option MValue
  | none => none
  | some v =>
    if v.isFalsy || !v.typeofIsObject || !v.hasTypeKey then none else some v

/-! ### Rate limiter (`src/src/rate-limit.ts`) -/

structure RateLimiter : Type where
  windows : List (String × List Nat)
  maxMessages : Nat

/-- `new RateLimiter(maxMessagesPerSecond)`; `windowMs` is fixed at 1000. -/
def RateLimiter.mk0 (maxMessagesPerSecond : Nat) : RateLimiter :=
  { windows := [], maxMessages := maxMessagesPerSecond }

def windowMs : Nat := 1000

/-- `RateLimiter.allow(clientId)`: prune entries older than `now - windowMs`
from the front, reject when the pruned window already holds `maxMessages`
entries, otherwise record `now`.  Returns the decision and the new state. -/
def RateLimiter.allow (rl : RateLimiter) (clientId : String) (now : Nat) :
    Bool × RateLimiter :=
  let cutoff := now - windowMs
  let ts := (lookupA rl.windows clientId).getD []
  let ts' := ts.dropWhile (fun t => t < cutoff)
  if rl.maxMessages ≤ ts'.length then
    (false, { rl with windows := setA rl.windows clientId ts' })
  else
    (true, { rl with windows := setA rl.windows clientId (ts' ++ [now]) })

/-- `RateLimiter.remove(clientId)`: drop the client's window entirely. -/
def RateLimiter.remove (rl : RateLimiter) (clientId : String) : RateLimiter :=
  { rl with windows := eraseA rl.windows clientId }

/-- `RateLimiter.cleanup()`: prune every window, delete the empty ones. -/
def RateLimiter.cleanup (rl : RateLimiter) (now : Nat) : RateLimiter :=
  let cutoff := now - windowMs
  { rl with
    windows :=
      (rl.windows.map (fun kv => (kv.1, kv.2.dropWhile (fun t => t < cutoff)))).filter
        (fun kv => !kv.2.isEmpty) }

/-! ### Authoritative-mode protocol and room
(`src/unnamed/part_001` protocol, `src/unnamed/part_000` room) -/

structure Vec3 : Type where
  x : Int
  y : Int
  z : Int
deriving DecidableEq

structure Vec4 : Type where
  x : Int
  y : Int
  z : Int
  w : Int
deriving DecidableEq

/-- `PlayerState` from the authoritative protocol module. -/
structure PlayerState : Type where
  position : Vec3
  rotation : Vec4
  action : String
  timestamp : Option Nat
deriving DecidableEq

/-- Server→client messages of the authoritative protocol (`ServerMessage`). -/
inductive ServerMsgA : Type where
  | snapshot : List (String × (PlayerState × String)) → Nat → ServerMsgA
  | playerJoined : String → String → ServerMsgA
  | playerLeft : String → ServerMsgA
  | chat : String → String → ServerMsgA
  | error : String → String → ServerMsgA
deriving DecidableEq

def ErrorCodes.RATE_LIMITED : String := "RATE_LIMITED"

def ErrorCodes.ROOM_FULL : String := "ROOM_FULL"

def ErrorCodes.INVALID_MESSAGE : String := "INVALID_MESSAGE"

def ErrorCodes.NOT_JOINED : String := "NOT_JOINED"

def ErrorCodes.BAD_PROTOCOL : String := "BAD_PROTOCOL"

/-- A WebSocket connection handle: identity plus `readyState === OPEN`. -/
structure Conn : Type where
  id : Nat
  isOpen : Bool
deriving DecidableEq

/-- Observable I/O effects: `send c m` models `c.send(encodeMessage(m))`,
`close c code reason` models `c.close(code, reason)`. -/
inductive Effect : Type where
  | send : Nat → ServerMsgA → Effect
  | close : Nat → Nat → String → Effect
deriving DecidableEq

/-- `Player` record from the authoritative room module. -/
structure Player : Type where
  id : String
  ws : Conn
  displayName : String
  state : PlayerState
  joinedAt : Nat
deriving DecidableEq

/-- Authoritative `Room` (`src/unnamed/part_000`): `tickRunning` models
`tickInterval !== null`. -/
structure Room : Type where
  id : String
  players : List (String × Player)
  tickRunning : Bool
  maxPlayers : Nat
  snapshotHz : Nat
  messageCount : Nat
  lastMessageCountReset : Nat
  messagesPerSecond : Nat
deriving DecidableEq

/-- `new Room(id, maxPlayers, snapshotHz)` at server time `now`. -/
def Room.mk0 (id : String) (maxPlayers snapshotHz now : Nat) : Room :=
  { id := id, players := [], tickRunning := false, maxPlayers := maxPlayers,
    snapshotHz := snapshotHz, messageCount := 0, lastMessageCountReset := now,
    messagesPerSecond := 0 }

def Room.playerCount (r : Room) : Nat := r.players.length

/-- `get isFull(): this.players.size >= this.maxPlayers`. -/
def Room.isFull (r : Room) : Bool := decide (r.maxPlayers ≤ r.players.length)

def Room.hasPlayer (r : Room) (id : String) : Bool := (lookupA r.players id).isSome

/-- `Room.broadcast(msg, excludeId?)`: send to every player except
`excludeId` whose connection reports open (fire-and-forget). -/
def broadcastEffects (players : List (String × Player)) (msg : ServerMsgA)
    (excludeId : Option String) : List Effect :=
  (players.filter (fun kv => (excludeId != some kv.1) && kv.2.ws.isOpen)).map
    (fun kv => Effect.send kv.2.ws.id msg)

/-- The canonical neutral state seeded on join: zero position, identity
rotation, idle action, no timestamp yet. -/
def neutralState : PlayerState :=
  { position := { x := 0, y := 0, z := 0 },
    rotation := { x := 0, y := 0, z := 0, w := 1 },
    action := "idle",
    timestamp := none }

/-- `Room.join(id, ws, displayName)`: reject with a `ROOM_FULL` error
envelope when full; otherwise register the player (JS `Map.set`, so an
existing entry under the same id is replaced), notify the other players and
start the tick loop when the room has exactly one player and no loop runs. -/
def Room.join (r : Room) (id : String) (ws : Conn) (displayName : String) (now : Nat) :
    Bool × Room × List Effect :=
  if r.isFull then
    (false, r,
      [Effect.send ws.id (ServerMsgA.error ErrorCodes.ROOM_FULL
        ("Room \"" ++ r.id ++ "\" is full (" ++ toString r.maxPlayers ++ " players)"))])
  else
    let player : Player :=
      { id := id, ws := ws, displayName := displayName, state := neutralState,
        joinedAt := now }
    let players' := setA r.players id player
    let fx := broadcastEffects players' (ServerMsgA.playerJoined id displayName) (some id)
    let tickRunning' :=
      if players'.length == 1 && !r.tickRunning then true else r.tickRunning
    (true, { r with players := players', tickRunning := tickRunning' }, fx)

/-- `Room.leave(id)`: no-op for an unknown id; otherwise evict, notify the
remaining players, and stop the tick loop when the room became empty. -/
def Room.leave (r : Room) (id : String) : Room × List Effect :=
  match lookupA r.players id with
  | none => (r, [])
  | some _ =>
    let players' := eraseA r.players id
    let fx := broadcastEffects players' (ServerMsgA.playerLeft id) none
    let tickRunning' := if players'.length == 0 then false else r.tickRunning
    ({ r with players := players', tickRunning := tickRunning' }, fx)

/-- `Room.updatePlayerState(id, state)`: no-op for an unknown id; otherwise
replace the stored state, stamped with the server's current time.  The
effect list is the sends this method performs — none in the source. -/
def Room.updatePlayerState (r : Room) (id : String) (state : PlayerState) (now : Nat) :
    Room × List Effect :=
  match lookupA r.players id with
  | none => (r, [])
  | some p =>
    ({ r with
        players := setA r.players id { p with state := { state with timestamp := some now } },
        messageCount := r.messageCount + 1 }, [])

/-- `Room.chat(id, message)`: broadcast to everyone (sender included) after
truncating to 500 characters. -/
def Room.chat (r : Room) (id : String) (message : String) : Room × List Effect :=
  match lookupA r.players id with
  | none => (r, [])
  | some _ =>
    ({ r with messageCount := r.messageCount + 1 },
      broadcastEffects r.players (ServerMsgA.chat id (message.take 500)) none)

/-- `Room.tick()`: if non-empty, broadcast one snapshot of every player's
stored state plus display name, then refresh the messages/sec gauge once at
least a second elapsed (`Math.round` is round-half-up on the quotient). -/
def Room.tick (r : Room) (now : Nat) : Room × List Effect :=
  if r.players.length == 0 then (r, [])
  else
    let playersSnap := r.players.map (fun kv => (kv.1, (kv.2.state, kv.2.displayName)))
    let fx := broadcastEffects r.players (ServerMsgA.snapshot playersSnap now) none
    let elapsed := now - r.lastMessageCountReset
    if 1000 ≤ elapsed then
      ({ r with
          messagesPerSecond := (r.messageCount * 1000 * 2 + elapsed) / (2 * elapsed),
          messageCount := 0,
          lastMessageCountReset := now }, fx)
    else (r, fx)

/-- `Room.destroy()`: stop the loop, close every member connection with the
fixed reason, clear membership. -/
def Room.destroy (r : Room) : Room × List Effect :=
  ({ r with players := [], tickRunning := false },
    r.players.map (fun kv => Effect.close kv.2.ws.id 1001 "Room destroyed"))

theorem mem_broadcastEffects (players : List (String × Player)) (msg : ServerMsgA)
    (ex : Option String) (e : Effect) (h : e ∈ broadcastEffects players msg ex) :
    ∃ kv, kv ∈ players ∧ ex ≠ some kv.1 ∧ kv.2.ws.isOpen = true ∧
      e = Effect.send kv.2.ws.id msg := by
  simp only [broadcastEffects, List.mem_map, List.mem_filter, Bool.and_eq_true,
    bne_iff_ne, ne_eq] at h
  obtain ⟨kv, ⟨hkv, hne, hopen⟩, he⟩ := h
  exact ⟨kv, hkv, hne, hopen, he.symm⟩

/-! ### Concrete fixtures used by witnesses -/

def connA : Conn := { id := 1, isOpen := true }

def connB : Conn := { id := 2, isOpen := true }

def playerA : Player :=
  { id := "a", ws := connA, displayName := "A", state := neutralState, joinedAt := 0 }

def roomOne : Room :=
  { id := "arena", players := [("a", playerA)], tickRunning := true, maxPlayers := 1,
    snapshotHz := 20, messageCount := 0, lastMessageCountReset := 0,
    messagesPerSecond := 0 }

def roomTwo : Room := { roomOne with maxPlayers := 2 }

/-- C1: the membership count never exceeds capacity: a join when
`|members| = capacity` returns `false`, sends a `ROOM_FULL` error envelope
naming the room and its capacity directly to the rejected connection, and
leaves the room state unchanged; a join when `|members| < capacity` is
accepted; and `join` preserves `|members| ≤ capacity`. -/
theorem room_capacity_enforced (r : Room) (id : String) (ws : Conn)
    (displayName : String) (now : Nat) :
    (r.players.length = r.maxPlayers →
      (r.join id ws displayName now).1 = false ∧
      (r.join id ws displayName now).2.1 = r ∧
      (r.join id ws displayName now).2.2 =
        [Effect.send ws.id (ServerMsgA.error ErrorCodes.ROOM_FULL
          ("Room \"" ++ r.id ++ "\" is full (" ++ toString r.maxPlayers ++ " players)"))]) ∧
    (r.players.length < r.maxPlayers → (r.join id ws displayName now).1 = true) ∧
    (r.players.length ≤ r.maxPlayers →
      (r.join id ws displayName now).2.1.players.length ≤ r.maxPlayers) := by
  refine ⟨?_, ?_, ?_⟩
  · intro h
    have hf : r.isFull = true := by simp [Room.isFull, h]
    simp [Room.join, hf]
  · intro h
    have hf : r.isFull = false := by
      simp [Room.isFull]
      omega
    simp [Room.join, hf]
  · intro h
    rcases Nat.lt_or_ge r.players.length r.maxPlayers with hlt | hge
    · have hf : r.isFull = false := by
        simp [Room.isFull]
        omega
      have hle := length_setA_le r.players id
        { id := id, ws := ws, displayName := displayName, state := neutralState,
          joinedAt := now }
      simp only [Room.join, hf, Bool.false_eq_true, if_false]
      omega
    · have hf : r.isFull = true := by
        simp [Room.isFull]
        omega
      simp [Room.join, hf, h]

/-- C1 witness: a concrete full room rejects a further join and a concrete
non-full room accepts it. -/
theorem room_capacity_enforced_witness :
    (roomOne.join "b" connB "B" 5).1 = false ∧ (roomTwo.join "b" connB "B" 5).1 = true :=
  ⟨((room_capacity_enforced roomOne "b" connB "B" 5).1 (by decide)).1,
   (room_capacity_enforced roomTwo "b" connB "B" 5).2.1 (by decide)⟩

/-- C8: joining with an id already present in a non-full room returns `true`,
replaces the member record with a fresh one (new connection, neutral state,
new joined-at time), leaves the member count unchanged, and every resulting
send is a `player_joined` notification to some other member; at capacity the
duplicate join is rejected without touching the room. -/
theorem room_join_duplicate (r : Room) (id : String) (pOld : Player) (ws : Conn)
    (displayName : String) (now : Nat) (hmem : lookupA r.players id = some pOld) :
    (r.players.length < r.maxPlayers →
      (r.join id ws displayName now).1 = true ∧
      (r.join id ws displayName now).2.1.players.length = r.players.length ∧
      lookupA (r.join id ws displayName now).2.1.players id =
        some { id := id, ws := ws, displayName := displayName, state := neutralState,
               joinedAt := now } ∧
      ∀ e ∈ (r.join id ws displayName now).2.2,
        ∃ kv, kv ∈ (r.join id ws displayName now).2.1.players ∧ kv.1 ≠ id ∧
          kv.2.ws.isOpen = true ∧
          e = Effect.send kv.2.ws.id (ServerMsgA.playerJoined id displayName)) ∧
    (r.maxPlayers ≤ r.players.length →
      (r.join id ws displayName now).1 = false ∧
      (r.join id ws displayName now).2.1 = r) := by
  constructor
  · intro hlt
    have hf : r.isFull = false := by
      simp [Room.isFull]
      omega
    refine ⟨by simp [Room.join, hf], ?_, ?_, ?_⟩
    · simp only [Room.join, hf, Bool.false_eq_true, if_false]
      exact length_setA_of_mem r.players id _ pOld hmem
    · simp only [Room.join, hf, Bool.false_eq_true, if_false]
      exact lookupA_setA_self r.players id _
    · intro e he
      simp only [Room.join, hf, Bool.false_eq_true, if_false] at he ⊢
      obtain ⟨kv, hkv, hne, hopen, heq⟩ := mem_broadcastEffects _ _ _ _ he
      refine ⟨kv, hkv, ?_, hopen, heq⟩
      intro hk
      exact hne (by simp [hk])
  · intro hge
    have hf : r.isFull = true := by
      simp [Room.isFull]
      omega
    simp [Room.join, hf]

/-- C8 witness: a duplicate join into a concrete non-full room keeps the
count at one and stores the fresh record; the same duplicate join into the
room at capacity is rejected. -/
theorem room_join_duplicate_witness :
    ((roomTwo.join "a" connB "B" 7).1 = true ∧
      (roomTwo.join "a" connB "B" 7).2.1.players.length = 1) ∧
    (roomOne.join "a" connB "B" 7).1 = false :=
  ⟨⟨((room_join_duplicate roomTwo "a" playerA connB "B" 7 (by decide)).1 (by decide)).1,
    ((room_join_duplicate roomTwo "a" playerA connB "B" 7 (by decide)).1 (by decide)).2.1⟩,
   ((room_join_duplicate roomOne "a" playerA connB "B" 7 (by decide)).2 (by decide)).1⟩

/-- C4: `updatePlayerState` is a no-op for an unknown id, performs no sends,
and for a member replaces the stored state stamped with the server time;
after two updates for the same member the next tick broadcasts one snapshot
whose entry for that id holds only the latest value (last-write-wins). -/
theorem updatePlayerState_last_write_wins (r r1 r2 : Room) (id : String) (p : Player)
    (s1 s2 : PlayerState) (t1 t2 tNow : Nat)
    (hmem : lookupA r.players id = some p)
    (h1 : (r.updatePlayerState id s1 t1).1 = r1)
    (h2 : (r1.updatePlayerState id s2 t2).1 = r2) :
    (∀ (rx : Room) (sx : PlayerState) (tx : Nat),
      lookupA rx.players id = none → rx.updatePlayerState id sx tx = (rx, [])) ∧
    (∀ (rx : Room) (sx : PlayerState) (tx : Nat),
      (rx.updatePlayerState id sx tx).2 = []) ∧
    lookupA r1.players id = some { p with state := { s1 with timestamp := some t1 } } ∧
    lookupA r2.players id = some { p with state := { s2 with timestamp := some t2 } } ∧
    (r2.tick tNow).2 =
      broadcastEffects r2.players
        (ServerMsgA.snapshot
          (r2.players.map (fun kv => (kv.1, (kv.2.state, kv.2.displayName)))) tNow) none ∧
    lookupA (r2.players.map (fun kv => (kv.1, (kv.2.state, kv.2.displayName)))) id =
      some ({ s2 with timestamp := some t2 }, p.displayName) := by
  have hr1 : lookupA r1.players id =
      some { p with state := { s1 with timestamp := some t1 } } := by
    subst h1
    simp only [Room.updatePlayerState, hmem]
    exact lookupA_setA_self r.players id _
  have hr2 : lookupA r2.players id =
      some { p with state := { s2 with timestamp := some t2 } } := by
    subst h2
    simp only [Room.updatePlayerState, hr1]
    have := lookupA_setA_self r1.players id
      { { p with state := { s1 with timestamp := some t1 } } with
        state := { s2 with timestamp := some t2 } }
    simpa using this
  have hne : r2.players.length ≠ 0 := by
    intro h0
    rw [List.length_eq_zero] at h0
    rw [h0] at hr2
    simp [lookupA] at hr2
  refine ⟨?_, ?_, hr1, hr2, ?_, ?_⟩
  · intro rx sx tx hnone
    simp [Room.updatePlayerState, hnone]
  · intro rx sx tx
    cases hx : lookupA rx.players id <;> simp [Room.updatePlayerState, hx]
  · simp only [Room.tick, beq_iff_eq, hne, if_false]
    split <;> rfl
  · rw [lookupA_map (fun q => (q.state, q.displayName)) r2.players id, hr2]
    rfl

/-- C4 witness: two concrete updates then a tick; the snapshot entry holds
the second state stamped with the second time. -/
theorem updatePlayerState_last_write_wins_witness :
    lookupA (((roomTwo.updatePlayerState "a"
        { position := { x := 1, y := 0, z := 0 },
          rotation := { x := 0, y := 0, z := 0, w := 1 },
          action := "run", timestamp := none } 1).1.updatePlayerState "a"
        { position := { x := 2, y := 5, z := 0 },
          rotation := { x := 0, y := 0, z := 0, w := 1 },
          action := "jump", timestamp := none } 2).1.players.map
      (fun kv => (kv.1, (kv.2.state, kv.2.displayName)))) "a" =
      some ({ position := { x := 2, y := 5, z := 0 },
              rotation := { x := 0, y := 0, z := 0, w := 1 },
              action := "jump", timestamp := some 2 }, "A") :=
  (updatePlayerState_last_write_wins roomTwo _ _ "a" playerA _ _ 1 2 3
    (by decide) rfl rfl).2.2.2.2.2

/-! ### Rate-limiter lemmas and claims -/

theorem dropWhile_lt_eq_self_of_all {l : List Nat} {c : Nat} (h : ∀ t ∈ l, ¬ t < c) :
    l.dropWhile (fun t => t < c) = l := by
  induction l with
  | nil => rfl
  | cons hd tl ih =>
    have hhd : ¬ hd < c := h hd (by simp)
    simp [List.dropWhile, hhd]

theorem dropWhile_lt_eq_nil_of_all {l : List Nat} {c : Nat} (h : ∀ t ∈ l, t < c) :
    l.dropWhile (fun t => t < c) = [] := by
  induction l with
  | nil => rfl
  | cons hd tl ih =>
    have hhd : hd < c := h hd (by simp)
    simp only [List.dropWhile, decide_eq_true hhd]
    exact ih (fun t ht => h t (by simp [ht]))

theorem length_dropWhile_le_self {α : Type} (p : α → Bool) (l : List α) :
    (l.dropWhile p).length ≤ l.length := by
  induction l with
  | nil => simp
  | cons hd tl ih =>
    cases h : p hd
    · simp [List.dropWhile, h]
    · simp only [List.dropWhile, h]
      exact le_trans ih (by simp)

theorem lookupA_mem {α : Type} (l : List (String × α)) (k : String) (v : α)
    (h : lookupA l k = some v) : (k, v) ∈ l := by
  induction l with
  | nil => simp [lookupA] at h
  | cons hd tl ih =>
    obtain ⟨k0, v0⟩ := hd
    by_cases h0 : k0 = k
    · subst h0
      simp [lookupA] at h
      simp [h]
    · simp [lookupA, h0] at h
      simp [ih h]

theorem mem_eraseA {α : Type} (l : List (String × α)) (k : String) (x : String × α)
    (h : x ∈ eraseA l k) : x ∈ l := by
  induction l with
  | nil => simp [eraseA] at h
  | cons hd tl ih =>
    obtain ⟨k0, v0⟩ := hd
    by_cases h0 : k0 = k
    · simp [eraseA, h0] at h
      simp [h]
    · simp [eraseA, h0] at h
      rcases h with h | h
      · simp [h]
      · simp [ih h]

/-- C2: with the limiter holding, for a client, a window of `maxMessages`
admitted timestamps all inside the trailing 1000 ms, the next `allow` call
returns `false` and leaves the stored window unchanged; once every stored
entry is older than 1000 ms, `allow` returns `true` and the stored window
becomes just the current time. -/
theorem rateLimiter_sliding_window (rl : RateLimiter) (clientId : String)
    (ts : List Nat) (now : Nat)
    (hwin : lookupA rl.windows clientId = some ts) :
    (ts.length = rl.maxMessages → (∀ t ∈ ts, ¬ t < now - windowMs) →
      (rl.allow clientId now).1 = false ∧
      lookupA (rl.allow clientId now).2.windows clientId = some ts) ∧
    ((∀ t ∈ ts, t < now - windowMs) → 0 < rl.maxMessages →
      (rl.allow clientId now).1 = true ∧
      lookupA (rl.allow clientId now).2.windows clientId = some [now]) := by
  constructor
  · intro hlen hrecent
    have hd : ts.dropWhile (fun t => t < now - windowMs) = ts :=
      dropWhile_lt_eq_self_of_all hrecent
    refine ⟨?_, ?_⟩
    · simp [RateLimiter.allow, hwin, hd, hlen]
    · simp only [RateLimiter.allow, hwin, Option.getD_some, hd, hlen, le_refl, if_true]
      exact lookupA_setA_self _ _ _
  · intro hold hpos
    have hd : ts.dropWhile (fun t => t < now - windowMs) = [] :=
      dropWhile_lt_eq_nil_of_all hold
    have hzero : ¬ rl.maxMessages = 0 := by omega
    refine ⟨?_, ?_⟩
    · simp [RateLimiter.allow, hwin, hd, hzero]
    · simp [RateLimiter.allow, hwin, hd, hzero, lookupA_setA_self]

def rlOne : RateLimiter := { windows := [("c", [500])], maxMessages := 1 }

/-- C2 witness: with one admitted timestamp at 500 and max 1, a call at 600
is rejected leaving the window `[500]`; a call at 1600 is accepted and the
window becomes `[1600]`. -/
theorem rateLimiter_sliding_window_witness :
    ((rlOne.allow "c" 600).1 = false ∧
      lookupA (rlOne.allow "c" 600).2.windows "c" = some [500]) ∧
    ((rlOne.allow "c" 1600).1 = true ∧
      lookupA (rlOne.allow "c" 1600).2.windows "c" = some [1600]) :=
  ⟨(rateLimiter_sliding_window rlOne "c" [500] 600 (by decide)).1 (by decide) (by decide),
   (rateLimiter_sliding_window rlOne "c" [500] 1600 (by decide)).2 (by decide) (by decide)⟩

/-- C9: every stored window holds at most `maxMessages` timestamps: the
bound holds in the initial state and is preserved by `allow` (accepting and
rejecting alike), `remove` and `cleanup`. -/
theorem rateLimiter_windows_bounded (rl : RateLimiter) (clientId : String) (now : Nat)
    (h : ∀ kv ∈ rl.windows, kv.2.length ≤ rl.maxMessages) :
    (∀ kv ∈ (RateLimiter.mk0 rl.maxMessages).windows,
      kv.2.length ≤ (RateLimiter.mk0 rl.maxMessages).maxMessages) ∧
    (∀ kv ∈ (rl.allow clientId now).2.windows,
      kv.2.length ≤ (rl.allow clientId now).2.maxMessages) ∧
    (∀ kv ∈ (rl.remove clientId).windows, kv.2.length ≤ (rl.remove clientId).maxMessages) ∧
    (∀ kv ∈ (rl.cleanup now).windows, kv.2.length ≤ (rl.cleanup now).maxMessages) := by
  have hts : ((lookupA rl.windows clientId).getD []).length ≤ rl.maxMessages := by
    cases hx : lookupA rl.windows clientId with
    | none => simp
    | some ts =>
      simpa using h (clientId, ts) (lookupA_mem rl.windows clientId ts hx)
  refine ⟨?_, ?_, ?_, ?_⟩
  · intro kv hkv
    simp [RateLimiter.mk0] at hkv
  · intro kv hkv
    by_cases hfull :
        rl.maxMessages ≤
          (((lookupA rl.windows clientId).getD []).dropWhile
            (fun t => t < now - windowMs)).length
    · simp only [RateLimiter.allow, hfull, if_true] at hkv ⊢
      rcases mem_setA _ _ _ _ hkv with hkv' | hkv'
      · subst hkv'
        exact le_trans (length_dropWhile_le_self _ _) hts
      · exact h kv hkv'
    · simp only [RateLimiter.allow, hfull, if_false] at hkv ⊢
      rcases mem_setA _ _ _ _ hkv with hkv' | hkv'
      · subst hkv'
        simp only [List.length_append, List.length_singleton]
        omega
      · exact h kv hkv'
  · intro kv hkv
    exact h kv (mem_eraseA _ _ _ hkv)
  · intro kv hkv
    simp only [RateLimiter.cleanup, List.mem_filter, List.mem_map] at hkv
    obtain ⟨⟨kv0, hkv0, heq⟩, _⟩ := hkv
    have := h kv0 hkv0
    rw [← heq]
    simpa using le_trans (length_dropWhile_le_self _ _) this

/-- C9 witness: the bound holds after a concrete `allow` and `cleanup`. -/
theorem rateLimiter_windows_bounded_witness :
    (∀ kv ∈ (rlOne.allow "c" 600).2.windows,
      kv.2.length ≤ (rlOne.allow "c" 600).2.maxMessages) ∧
    (∀ kv ∈ (rlOne.cleanup 600).windows, kv.2.length ≤ (rlOne.cleanup 600).maxMessages) :=
  ⟨(rateLimiter_windows_bounded rlOne "c" 600 (by decide)).2.1,
   (rateLimiter_windows_bounded rlOne "c" 600 (by decide)).2.2.2⟩

/-! ### Decoder characterization (C3) -/

/-- Written from the spec's words, for comparison with the decoders
translated from the source: "the payload is not a well-formed keyed
structure or its discriminant `type` tag is absent/of the wrong shape".
The discriminant of every message union in both protocols is a string, so
"of the wrong shape" means not a string. -/
def specClaimMalformed : DecodeOutcome → Bool
  | none => true
  | some (.map kvs) =>
    match lookupA kvs "type" with
    | some (.str _) => false
    | _ => true
  | some _ => true

/-- A plain keyed object (what JS property-keyed records decode to). -/
def isKeyedStructure : MValue → Bool
  | .map _ => true
  | _ => false

/-- A binary blob (`Uint8Array`), which is a non-array JS object. -/
def isBinaryBlob : MValue → Bool
  | .bin _ => true
  | _ => false

/-- C3 counterexample: neither decoder returns the sentinel exactly on the
spec's malformedness condition.  `{ foo: 1 }` has no `type` tag at all,
yet `decodeMessage` (relay protocol) returns it, and `{ type: 7 }` has a
`type` tag of the wrong shape, yet the authoritative decoder returns it. -/
theorem decode_sentinel_claim_false :
    ¬ (∀ d : DecodeOutcome,
        (decodeMessage d = none ↔ specClaimMalformed d = true) ∧
        (decodeMessageAuth d = none ↔ specClaimMalformed d = true)) := by
  intro h
  have h1 := (h (some (.map [("foo", .int 1)]))).1
  simp [decodeMessage, specClaimMalformed, MValue.isFalsy, MValue.typeofIsObject,
    MValue.isArray, lookupA] at h1

/-- C3 (amended): both decoders are total into the option type — the decode
exception and every rejected shape collapse to the `null` sentinel — and the
sentinel is returned exactly when decoding threw or the decoded value is not
a keyed structure (the relay decoder also passes binary blobs through, and
never examines the `type` tag; the authoritative decoder additionally
requires a `type` key to be present, of any shape). -/
theorem decode_total_and_sentinel :
    (decodeMessage none = none ∧ decodeMessageAuth none = none) ∧
    (∀ v : MValue, decodeMessage (some v) =
      if isKeyedStructure v || isBinaryBlob v then some v else none) ∧
    (∀ v : MValue, decodeMessageAuth (some v) =
      if isKeyedStructure v && v.hasTypeKey then some v else none) := by
  refine ⟨⟨rfl, rfl⟩, ?_, ?_⟩
  · intro v
    cases v <;>
      simp [decodeMessage, isKeyedStructure, isBinaryBlob, MValue.isFalsy,
        MValue.typeofIsObject, MValue.isArray]
  · intro v
    match v with
    | .nil | .bool _ | .int _ | .str _ | .bin _ | .arr _ =>
      simp [decodeMessageAuth, isKeyedStructure, MValue.isFalsy,
        MValue.typeofIsObject, MValue.hasTypeKey]
    | .map kvs =>
      cases hx : (lookupA kvs "type").isSome <;>
        simp [decodeMessageAuth, isKeyedStructure, MValue.isFalsy,
          MValue.typeofIsObject, MValue.hasTypeKey, hx]

/-! ### Envelope encodings and the round-trip claim (C7) -/

/-- Server→client messages of the relay protocol (`src/src/protocol.ts`):
welcome, peer_joined, peer_left, relay, pong, error. -/
inductive ServerMsgR : Type where
  | welcome : Int → String → List String → ServerMsgR
  | peerJoined : String → ServerMsgR
  | peerLeft : String → ServerMsgR
  | relay : String → MValue → ServerMsgR
  | pong : String → Int → ServerMsgR
  | error : String → String → ServerMsgR

/-- The plain object a relay server message is serialized from (field layout
as in the TS type literals). -/
def encodeMsgR : ServerMsgR → MValue
  | .welcome pv pid peers =>
    .map [("type", .str "welcome"), ("protocolVersion", .int pv),
          ("playerId", .str pid), ("peers", .arr (peers.map MValue.str))]
  | .peerJoined pid => .map [("type", .str "peer_joined"), ("peerId", .str pid)]
  | .peerLeft pid => .map [("type", .str "peer_left"), ("peerId", .str pid)]
  | .relay fromId data =>
    .map [("type", .str "relay"), ("from", .str fromId), ("data", data)]
  | .pong nonce serverTime =>
    .map [("type", .str "pong"), ("nonce", .str nonce), ("serverTime", .int serverTime)]
  | .error code message =>
    .map [("type", .str "error"), ("code", .str code), ("message", .str message)]

/-- The plain object encoding of the authoritative `PlayerState` (the
optional `timestamp` key is present only when the state carries one). -/
def stateFields (s : PlayerState) : List (String × MValue) :=
  [("position", .map [("x", .int s.position.x), ("y", .int s.position.y),
      ("z", .int s.position.z)]),
   ("rotation", .map [("x", .int s.rotation.x), ("y", .int s.rotation.y),
      ("z", .int s.rotation.z), ("w", .int s.rotation.w)]),
   ("action", .str s.action)] ++
  (match s.timestamp with
   | none => []
   | some t => [("timestamp", .int t)])

/-- One snapshot entry: `{ ...player.state, displayName }`. -/
def snapshotEntryToValue (s : PlayerState) (displayName : String) : MValue :=
  .map (stateFields s ++ [("displayName", .str displayName)])

/-- The plain object an authoritative server message is serialized from. -/
def encodeMsgA : ServerMsgA → MValue
  | .snapshot players timestamp =>
    .map [("type", .str "snapshot"),
          ("payload", .map
            [("players", .map (players.map
                (fun kv => (kv.1, snapshotEntryToValue kv.2.1 kv.2.2)))),
             ("timestamp", .int timestamp)])]
  | .playerJoined id displayName =>
    .map [("type", .str "player_joined"),
          ("payload", .map [("id", .str id), ("displayName", .str displayName)])]
  | .playerLeft id =>
    .map [("type", .str "player_left"), ("payload", .map [("id", .str id)])]
  | .chat id message =>
    .map [("type", .str "chat"),
          ("payload", .map [("id", .str id), ("message", .str message)])]
  | .error code message =>
    .map [("type", .str "error"),
          ("payload", .map [("code", .str code), ("message", .str message)])]

/-- Reader for a list of string values (used for `peers`). -/
def strList : List MValue → Option (List String)
  | [] => some []
  | .str s :: rest =>
    match strList rest with
    | some l => some (s :: l)
    | none => none
  | _ => none

/-- Reader recovering a relay envelope from its object encoding; a
retraction of `encodeMsgR` witnessing that the encoding loses nothing. -/
def parseMsgR (v : MValue) : Option ServerMsgR :=
  match v with
  | .map kvs =>
    match lookupA kvs "type" with
    | some (.str "welcome") =>
      match lookupA kvs "protocolVersion", lookupA kvs "playerId", lookupA kvs "peers" with
      | some (.int pv), some (.str pid), some (.arr vs) =>
        match strList vs with
        | some peers => some (.welcome pv pid peers)
        | none => none
      | _, _, _ => none
    | some (.str "peer_joined") =>
      match lookupA kvs "peerId" with
      | some (.str pid) => some (.peerJoined pid)
      | _ => none
    | some (.str "peer_left") =>
      match lookupA kvs "peerId" with
      | some (.str pid) => some (.peerLeft pid)
      | _ => none
    | some (.str "relay") =>
      match lookupA kvs "from", lookupA kvs "data" with
      | some (.str fromId), some data => some (.relay fromId data)
      | _, _ => none
    | some (.str "pong") =>
      match lookupA kvs "nonce", lookupA kvs "serverTime" with
      | some (.str nonce), some (.int t) => some (.pong nonce t)
      | _, _ => none
    | some (.str "error") =>
      match lookupA kvs "code", lookupA kvs "message" with
      | some (.str code), some (.str message) => some (.error code message)
      | _, _ => none
    | _ => none
  | _ => none

def parseVec3 : MValue → Option Vec3
  | .map kvs =>
    match lookupA kvs "x", lookupA kvs "y", lookupA kvs "z" with
    | some (.int x), some (.int y), some (.int z) => some { x := x, y := y, z := z }
    | _, _, _ => none
  | _ => none

def parseVec4 : MValue → Option Vec4
  | .map kvs =>
    match lookupA kvs "x", lookupA kvs "y", lookupA kvs "z", lookupA kvs "w" with
    | some (.int x), some (.int y), some (.int z), some (.int w) =>
      some { x := x, y := y, z := z, w := w }
    | _, _, _, _ => none
  | _ => none

/-- Reader for a snapshot entry (`PlayerState` plus display name). -/
def parseSnapshotEntry : MValue → Option (PlayerState × String)
  | .map kvs =>
    match parseVec3 ((lookupA kvs "position").getD .nil),
        parseVec4 ((lookupA kvs "rotation").getD .nil),
        lookupA kvs "action", lookupA kvs "displayName" with
    | some pos, some rot, some (.str act), some (.str dn) =>
      match lookupA kvs "timestamp" with
      | none =>
        some ({ position := pos, rotation := rot, action := act, timestamp := none }, dn)
      | some (.int t) =>
        some ({ position := pos, rotation := rot, action := act,
                timestamp := some t.toNat }, dn)
      | some _ => none
    | _, _, _, _ => none
  | _ => none

def parseEntries : List (String × MValue) → Option (List (String × (PlayerState × String)))
  | [] => some []
  | (k, v) :: rest =>
    match parseSnapshotEntry v, parseEntries rest with
    | some e, some l => some ((k, e) :: l)
    | _, _ => none

/-- Reader recovering an authoritative envelope from its object encoding; a
retraction of `encodeMsgA`. -/
def parseMsgA (v : MValue) : Option ServerMsgA :=
  match v with
  | .map kvs =>
    match lookupA kvs "type", lookupA kvs "payload" with
    | some (.str "snapshot"), some (.map p) =>
      match lookupA p "players", lookupA p "timestamp" with
      | some (.map entries), some (.int t) =>
        match parseEntries entries with
        | some players => some (.snapshot players t.toNat)
        | none => none
      | _, _ => none
    | some (.str "player_joined"), some (.map p) =>
      match lookupA p "id", lookupA p "displayName" with
      | some (.str id), some (.str dn) => some (.playerJoined id dn)
      | _, _ => none
    | some (.str "player_left"), some (.map p) =>
      match lookupA p "id" with
      | some (.str id) => some (.playerLeft id)
      | _ => none
    | some (.str "chat"), some (.map p) =>
      match lookupA p "id", lookupA p "message" with
      | some (.str id), some (.str message) => some (.chat id message)
      | _, _ => none
    | some (.str "error"), some (.map p) =>
      match lookupA p "code", lookupA p "message" with
      | some (.str code), some (.str message) => some (.error code message)
      | _, _ => none
    | _, _ => none
  | _ => none

theorem strList_map_str (l : List String) : strList (l.map MValue.str) = some l := by
  induction l with
  | nil => rfl
  | cons hd tl ih => simp [strList, ih]

theorem parseSnapshotEntry_encode (s : PlayerState) (dn : String) :
    parseSnapshotEntry (snapshotEntryToValue s dn) = some (s, dn) := by
  obtain ⟨⟨px, py, pz⟩, ⟨rx, ry, rz, rw⟩, act, ts⟩ := s
  cases ts <;> rfl

theorem parseEntries_encode (players : List (String × (PlayerState × String))) :
    parseEntries (players.map (fun kv => (kv.1, snapshotEntryToValue kv.2.1 kv.2.2))) =
      some players := by
  induction players with
  | nil => rfl
  | cons hd tl ih =>
    obtain ⟨k, s, dn⟩ := hd
    simp [parseEntries, parseSnapshotEntry_encode, ih]

/-- C7: encoding then decoding round-trips every server envelope variant of
both protocols: the decoder passes the encoded object through unchanged,
and the object still determines the original envelope (`parseMsgR`/
`parseMsgA` are retractions of the encodings). -/
theorem encode_decode_roundtrip :
    (∀ m : ServerMsgR, decodeMessage (some (encodeMsgR m)) = some (encodeMsgR m) ∧
      parseMsgR (encodeMsgR m) = some m) ∧
    (∀ m : ServerMsgA, decodeMessageAuth (some (encodeMsgA m)) = some (encodeMsgA m) ∧
      parseMsgA (encodeMsgA m) = some m) := by
  constructor
  · intro m
    cases m with
    | welcome pv pid peers =>
      exact ⟨rfl, by simp [encodeMsgR, parseMsgR, lookupA, strList_map_str]⟩
    | peerJoined pid => exact ⟨rfl, rfl⟩
    | peerLeft pid => exact ⟨rfl, rfl⟩
    | relay fromId data => exact ⟨rfl, rfl⟩
    | pong nonce t => exact ⟨rfl, rfl⟩
    | error code message => exact ⟨rfl, rfl⟩
  · intro m
    cases m with
    | snapshot players t =>
      refine ⟨rfl, ?_⟩
      simp [encodeMsgA, parseMsgA, lookupA, parseEntries_encode]
    | playerJoined id dn => exact ⟨rfl, rfl⟩
    | playerLeft id => exact ⟨rfl, rfl⟩
    | chat id message => exact ⟨rfl, rfl⟩
    | error code message => exact ⟨rfl, rfl⟩

/-! ### Authoritative session router (`src/index.ts`) -/

/-- Per-connection metadata (`clientMeta` in the authoritative router). -/
structure Meta : Type where
  clientId : String
  roomId : String
  joined : Bool
deriving DecidableEq

/-- `getOrCreateRoom(roomId)` over the room registry (authoritative). -/
def getOrCreateRoom (rooms : List (String × Room)) (roomId : String)
    (maxPlayers snapshotHz now : Nat) : Room × List (String × Room) :=
  match lookupA rooms roomId with
  | some room => (room, rooms)
  | none =>
    let room := Room.mk0 roomId maxPlayers snapshotHz now
    (room, setA rooms roomId room)

/-- `(message.payload.displayName || 'Anonymous').slice(0, 32)`.  `none`
abstracts the inputs on which the JS handler would fault (absent or null
payload) or store a non-string name; no claim exercises those. -/
def joinDisplayName (kvs : List (String × MValue)) : Option String :=
  match lookupA kvs "payload" with
  | none => none
  | some .nil => none
  | some (.map p) =>
    match lookupA p "displayName" with
    | some (.str s) => if s = "" then some ("Anonymous".take 32) else some (s.take 32)
    | some v => if v.isFalsy then some ("Anonymous".take 32) else none
    | none => some ("Anonymous".take 32)
  | some _ => some ("Anonymous".take 32)

/-- The shape under which the router's unchecked cast of `message.payload`
to `PlayerState` lands in the typed room model; `none` abstracts a payload
of a different shape (the source would store an untyped blob there), which
no claim exercises. -/
def parseStateValue : MValue → Option PlayerState
  | .map kvs =>
    match parseVec3 ((lookupA kvs "position").getD .nil),
        parseVec4 ((lookupA kvs "rotation").getD .nil), lookupA kvs "action" with
    | some pos, some rot, some (.str act) =>
      match lookupA kvs "timestamp" with
      | none => some { position := pos, rotation := rot, action := act, timestamp := none }
      | some (.int t) =>
        some { position := pos, rotation := rot, action := act, timestamp := some t.toNat }
      | some _ => none
    | _, _, _ => none
  | _ => none

def payloadAsState (kvs : List (String × MValue)) : Option PlayerState :=
  match lookupA kvs "payload" with
  | some v => parseStateValue v
  | none => none

/-- `message.payload.message` for the chat path; `none` where the source
would fault slicing a non-string. -/
def chatText (kvs : List (String × MValue)) : Option String :=
  match lookupA kvs "payload" with
  | some (.map p) =>
    match lookupA p "message" with
    | some (.str s) => some s
    | _ => none
  | _ => none

/-- One inbound frame on an authoritative-mode connection
(`ws.on('message')` in `src/index.ts`): rate limit, decode, resolve/create
the room, then dispatch on `message.type` — `join` only when not yet
joined, `state` answered with a `NOT_JOINED` error before joining, `chat`
dropped before joining, anything else dropped.  Returns the new registry,
rate limiter, metadata and effects. -/
def authHandleMessage (rooms : List (String × Room)) (rl : RateLimiter) (meta : Meta)
    (ws : Conn) (d : DecodeOutcome) (maxPlayers snapshotHz now : Nat) :
    List (String × Room) × RateLimiter × Meta × List Effect :=
  let allowed := (rl.allow meta.clientId now).1
  let rl' := (rl.allow meta.clientId now).2
  if !allowed then
    (rooms, rl', meta,
      [Effect.send ws.id (ServerMsgA.error ErrorCodes.RATE_LIMITED "Rate limited")])
  else
    match decodeMessageAuth d with
    | none =>
      (rooms, rl', meta,
        [Effect.send ws.id (ServerMsgA.error ErrorCodes.INVALID_MESSAGE
          "Invalid message format")])
    | some msg =>
      let room := (getOrCreateRoom rooms meta.roomId maxPlayers snapshotHz now).1
      let rooms1 := (getOrCreateRoom rooms meta.roomId maxPlayers snapshotHz now).2
      match msg with
      | .map kvs =>
        match lookupA kvs "type" with
        | some (.str "join") =>
          if meta.joined then (rooms1, rl', meta, [])
          else
            match joinDisplayName kvs with
            | none => (rooms1, rl', meta, [])
            | some displayName =>
              let ok := (room.join meta.clientId ws displayName now).1
              let room' := (room.join meta.clientId ws displayName now).2.1
              let fx := (room.join meta.clientId ws displayName now).2.2
              (setA rooms1 meta.roomId room', rl',
                if ok then { meta with joined := true } else meta, fx)
        | some (.str "state") =>
          if !meta.joined then
            (rooms1, rl', meta,
              [Effect.send ws.id (ServerMsgA.error ErrorCodes.NOT_JOINED
                "Send a \"join\" message first")])
          else
            match payloadAsState kvs with
            | none => (rooms1, rl', meta, [])
            | some st =>
              (setA rooms1 meta.roomId (room.updatePlayerState meta.clientId st now).1,
                rl', meta, (room.updatePlayerState meta.clientId st now).2)
        | some (.str "chat") =>
          if !meta.joined then (rooms1, rl', meta, [])
          else
            match chatText kvs with
            | none => (rooms1, rl', meta, [])
            | some text =>
              (setA rooms1 meta.roomId (room.chat meta.clientId text).1, rl', meta,
                (room.chat meta.clientId text).2)
        | _ => (rooms1, rl', meta, [])
      | _ => (rooms1, rl', meta, [])

/-- `ws.on('close')` (authoritative router): remove the rate-limit window,
leave the room, and tear down a non-default room that became empty. -/
def authHandleClose (rooms : List (String × Room)) (rl : RateLimiter)
    (clientId roomId : String) :
    List (String × Room) × RateLimiter × List Effect :=
  let rl' := rl.remove clientId
  match lookupA rooms roomId with
  | none => (rooms, rl', [])
  | some room =>
    let room' := (room.leave clientId).1
    let fx := (room.leave clientId).2
    if room'.playerCount == 0 && roomId != "lobby" then
      (eraseA rooms roomId, rl', fx ++ (room'.destroy).2)
    else
      (setA rooms roomId room', rl', fx)

/-! ### Relay-mode room and session router
(router: `src/unnamed/part_004`; the relay `Room` module itself is not
among the source files, so it is modelled from the spec) -/

def PROTOCOL_VERSION : Int := 1

/-- Relay-mode I/O effects (relay-protocol envelopes). -/
inductive REffect : Type where
  | send : Nat → ServerMsgR → REffect
  | close : Nat → Nat → String → REffect

/-- Modelled from the spec: the relay-mode `Room` state (§4.3; the relay
`room.ts` is missing from the sources — only its router imports it).
Members map client ids to connections. -/
structure RelayRoom : Type where
  id : String
  members : List (String × Conn)
  maxPlayers : Nat
  messageCount : Nat

def RelayRoom.playerCount (r : RelayRoom) : Nat := r.members.length

def relayBroadcast (members : List (String × Conn)) (msg : ServerMsgR)
    (excludeId : Option String) : List REffect :=
  (members.filter (fun kv => (excludeId != some kv.1) && kv.2.isOpen)).map
    (fun kv => REffect.send kv.2.id msg)

/-- Modelled from the spec: relay `Room.join` (§4.3): rejected iff
`|members| == capacity`, sending a `ROOM_FULL` error envelope naming the
room and capacity and changing nothing; on acceptance register the member,
send it `welcome` with its id and the prior peer ids, and broadcast
`peer_joined` to the others. -/
def RelayRoom.join (r : RelayRoom) (clientId : String) (ws : Conn) :
    Bool × RelayRoom × List REffect :=
  if r.maxPlayers ≤ r.members.length then
    (false, r,
      [REffect.send ws.id (ServerMsgR.error ErrorCodes.ROOM_FULL
        ("Room \"" ++ r.id ++ "\" is full (" ++ toString r.maxPlayers ++ " players)"))])
  else
    let peers := r.members.map Prod.fst
    let members' := setA r.members clientId ws
    (true, { r with members := members' },
      REffect.send ws.id (ServerMsgR.welcome PROTOCOL_VERSION clientId peers) ::
        relayBroadcast members' (ServerMsgR.peerJoined clientId) (some clientId))

/-- Modelled from the spec: relay `Room.relay` (§4.3): no-op for an unknown
sender, otherwise wrap the payload with the sender id and broadcast to all
members except the sender; increments the message counter. -/
def RelayRoom.relay (r : RelayRoom) (fromId : String) (payload : MValue) :
    RelayRoom × List REffect :=
  match lookupA r.members fromId with
  | none => (r, [])
  | some _ =>
    ({ r with messageCount := r.messageCount + 1 },
      relayBroadcast r.members (ServerMsgR.relay fromId payload) (some fromId))

/-- Auto-join at connect time on a relay-mode connection
(`wss.on('connection')` in `src/unnamed/part_004`): resolve/create the
room, join immediately, and close the connection with the fixed code 1013
when the room is full. -/
def relayHandleConnect (rooms : List (String × RelayRoom)) (clientId roomId : String)
    (ws : Conn) (maxPlayers : Nat) :
    List (String × RelayRoom) × List REffect :=
  let pair :=
    match lookupA rooms roomId with
    | some room => (room, rooms)
    | none =>
      let room : RelayRoom :=
        { id := roomId, members := [], maxPlayers := maxPlayers, messageCount := 0 }
      (room, setA rooms roomId room)
  let joined := (pair.1.join clientId ws).1
  let room' := (pair.1.join clientId ws).2.1
  let fx := (pair.1.join clientId ws).2.2
  if !joined then (pair.2, fx ++ [REffect.close ws.id 1013 "Room full"])
  else (setA pair.2 roomId room', fx)

/-- One inbound frame on a relay-mode connection (`ws.on('message')` in
`src/unnamed/part_004`): rate limit, decode, consume `hello` (replying
`BAD_PROTOCOL` and closing with 1008 only on a present numeric version
different from the server's) and well-formed `ping`; everything else is
game data relayed to peers. -/
def relayHandleMessage (room : RelayRoom) (rl : RateLimiter) (clientId : String)
    (ws : Conn) (d : DecodeOutcome) (now : Nat) :
    RelayRoom × RateLimiter × List REffect :=
  let allowed := (rl.allow clientId now).1
  let rl' := (rl.allow clientId now).2
  if !allowed then
    (room, rl',
      [REffect.send ws.id (ServerMsgR.error ErrorCodes.RATE_LIMITED "Rate limited")])
  else
    match decodeMessage d with
    | none =>
      (room, rl',
        [REffect.send ws.id (ServerMsgR.error ErrorCodes.INVALID_MESSAGE
          "Invalid message format")])
    | some msg =>
      let relayed := ((room.relay clientId msg).1, rl', (room.relay clientId msg).2)
      match msg with
      | .map kvs =>
        match lookupA kvs "type" with
        | some (.str "hello") =>
          match lookupA kvs "protocolVersion" with
          | some (.int v) =>
            if v == PROTOCOL_VERSION then (room, rl', [])
            else
              (room, rl',
                [REffect.send ws.id (ServerMsgR.error ErrorCodes.BAD_PROTOCOL
                  ("Protocol mismatch. Server=" ++ toString PROTOCOL_VERSION ++
                    ", Client=" ++ toString v)),
                 REffect.close ws.id 1008 "BAD_PROTOCOL"])
          | _ => (room, rl', [])
        | some (.str "ping") =>
          match lookupA kvs "nonce" with
          | some (.str nonce) =>
            (room, rl', [REffect.send ws.id (ServerMsgR.pong nonce now)])
          | _ => relayed
        | _ => relayed
      | _ => relayed

/-! ### Claims on the routers (C5, C6, C10) -/

def lobbyRoom : Room := { roomOne with id := "lobby" }

def roomsFix : List (String × Room) := [("arena", roomOne), ("lobby", lobbyRoom)]

/-- C6: disconnect of the last member of a non-default room removes the
room from the registry (after `destroy`), while the default "lobby" room
stays registered with zero members and a stopped loop. -/
theorem close_teardown (rooms : List (String × Room)) (rl : RateLimiter)
    (clientId roomId : String) (room : Room) (p : Player)
    (hroom : lookupA rooms roomId = some room)
    (hlast : room.players = [(clientId, p)])
    (hnd : (rooms.map Prod.fst).Nodup) :
    (roomId ≠ "lobby" →
      (authHandleClose rooms rl clientId roomId).1 = eraseA rooms roomId ∧
      lookupA (authHandleClose rooms rl clientId roomId).1 roomId = none) ∧
    (roomId = "lobby" →
      lookupA (authHandleClose rooms rl clientId roomId).1 roomId =
        some { room with players := [], tickRunning := false }) := by
  have hleave : room.leave clientId =
      ({ room with players := [], tickRunning := false }, []) := by
    simp [Room.leave, hlast, lookupA, eraseA, broadcastEffects]
  constructor
  · intro hne
    have hbne : (roomId != "lobby") = true := by simpa [bne_iff_ne] using hne
    have hres : (authHandleClose rooms rl clientId roomId).1 = eraseA rooms roomId := by
      simp [authHandleClose, hroom, hleave, Room.playerCount, hbne]
    exact ⟨hres, hres ▸ lookupA_eraseA_self rooms roomId hnd⟩
  · intro heq
    subst heq
    have hres : (authHandleClose rooms rl clientId "lobby").1 =
        setA rooms "lobby" { room with players := [], tickRunning := false } := by
      simp [authHandleClose, hroom, hleave, Room.playerCount]
    rw [hres]
    exact lookupA_setA_self rooms "lobby" _

/-- C6 witness: in a concrete registry, closing the last member of "arena"
removes it while closing the last member of "lobby" keeps it, empty. -/
theorem close_teardown_witness :
    lookupA (authHandleClose roomsFix rlOne "a" "arena").1 "arena" = none ∧
    lookupA (authHandleClose roomsFix rlOne "a" "lobby").1 "lobby" =
      some { lobbyRoom with players := [], tickRunning := false } :=
  ⟨((close_teardown roomsFix rlOne "a" "arena" roomOne playerA (by decide) (by decide)
      (by decide)).1 (by decide)).2,
   (close_teardown roomsFix rlOne "a" "lobby" lobbyRoom playerA (by decide) (by decide)
      (by decide)).2 rfl⟩

def relayRoomTwo : RelayRoom :=
  { id := "arena", members := [("c1", connA), ("c2", connB)], maxPlayers := 50,
    messageCount := 0 }

def relayRoomFull : RelayRoom := { relayRoomTwo with maxPlayers := 2 }

/-- C10: a decoded `hello` whose `protocolVersion` is absent or not a
number is consumed silently — no error, no close, nothing relayed, room
untouched — as is one carrying the server's own version; only a present
numeric version different from the server's triggers the `BAD_PROTOCOL`
error envelope and the 1008 close. -/
theorem hello_version_gate (room : RelayRoom) (rl : RateLimiter) (clientId : String)
    (ws : Conn) (kvs : List (String × MValue)) (now : Nat)
    (hallow : (rl.allow clientId now).1 = true)
    (htype : lookupA kvs "type" = some (.str "hello")) :
    (lookupA kvs "protocolVersion" = none →
      relayHandleMessage room rl clientId ws (some (.map kvs)) now =
        (room, (rl.allow clientId now).2, [])) ∧
    (∀ v, lookupA kvs "protocolVersion" = some v → (∀ n : Int, v ≠ .int n) →
      relayHandleMessage room rl clientId ws (some (.map kvs)) now =
        (room, (rl.allow clientId now).2, [])) ∧
    (lookupA kvs "protocolVersion" = some (.int PROTOCOL_VERSION) →
      relayHandleMessage room rl clientId ws (some (.map kvs)) now =
        (room, (rl.allow clientId now).2, [])) ∧
    (∀ n : Int, lookupA kvs "protocolVersion" = some (.int n) → n ≠ PROTOCOL_VERSION →
      relayHandleMessage room rl clientId ws (some (.map kvs)) now =
        (room, (rl.allow clientId now).2,
          [REffect.send ws.id (ServerMsgR.error ErrorCodes.BAD_PROTOCOL
            ("Protocol mismatch. Server=" ++ toString PROTOCOL_VERSION ++
              ", Client=" ++ toString n)),
           REffect.close ws.id 1008 "BAD_PROTOCOL"])) := by
  have hdec : decodeMessage (some (.map kvs)) = some (.map kvs) := by
    simp [decodeMessage, MValue.isFalsy, MValue.typeofIsObject, MValue.isArray]
  refine ⟨?_, ?_, ?_, ?_⟩
  · intro hv
    simp [relayHandleMessage, hallow, hdec, htype, hv]
  · intro v hv hshape
    cases v with
    | nil => simp [relayHandleMessage, hallow, hdec, htype, hv]
    | bool b => simp [relayHandleMessage, hallow, hdec, htype, hv]
    | int n => exact absurd rfl (hshape n)
    | str s => simp [relayHandleMessage, hallow, hdec, htype, hv]
    | bin bs => simp [relayHandleMessage, hallow, hdec, htype, hv]
    | arr vs => simp [relayHandleMessage, hallow, hdec, htype, hv]
    | map m => simp [relayHandleMessage, hallow, hdec, htype, hv]
  · intro hv
    simp [relayHandleMessage, hallow, hdec, htype, hv]
  · intro n hv hne
    have hb : (n == PROTOCOL_VERSION) = false := by simp [hne]
    simp [relayHandleMessage, hallow, hdec, htype, hv, hb]

/-- C10 witness: concrete `hello` frames — version absent, version of the
wrong shape, and version 2 against the server's 1. -/
theorem hello_version_gate_witness :
    relayHandleMessage relayRoomTwo (RateLimiter.mk0 60) "c1" connA
      (some (.map [("type", .str "hello")])) 0 =
      (relayRoomTwo, ((RateLimiter.mk0 60).allow "c1" 0).2, []) ∧
    relayHandleMessage relayRoomTwo (RateLimiter.mk0 60) "c1" connA
      (some (.map [("type", .str "hello"), ("protocolVersion", .str "x")])) 0 =
      (relayRoomTwo, ((RateLimiter.mk0 60).allow "c1" 0).2, []) ∧
    relayHandleMessage relayRoomTwo (RateLimiter.mk0 60) "c1" connA
      (some (.map [("type", .str "hello"), ("protocolVersion", .int 2)])) 0 =
      (relayRoomTwo, ((RateLimiter.mk0 60).allow "c1" 0).2,
        [REffect.send 1 (ServerMsgR.error ErrorCodes.BAD_PROTOCOL
          "Protocol mismatch. Server=1, Client=2"),
         REffect.close 1 1008 "BAD_PROTOCOL"]) :=
  ⟨(hello_version_gate relayRoomTwo (RateLimiter.mk0 60) "c1" connA
      [("type", .str "hello")] 0 rfl rfl).1 rfl,
   (hello_version_gate relayRoomTwo (RateLimiter.mk0 60) "c1" connA
      [("type", .str "hello"), ("protocolVersion", .str "x")] 0 rfl rfl).2.1
      (.str "x") rfl (fun n h => MValue.noConfusion h),
   (hello_version_gate relayRoomTwo (RateLimiter.mk0 60) "c1" connA
      [("type", .str "hello"), ("protocolVersion", .int 2)] 0 rfl rfl).2.2.2
      2 rfl (by decide)⟩

/-- C5 counterexample: a relay-mode connection is auto-joined at connect
time — the member is registered with no join frame ever processed — and a
`state` frame from such a client is relayed to its peer, not answered with
a not-joined error; so the claim's description of relay mode is false on
the code (the explicit-join gating lives in the authoritative router). -/
theorem relay_join_gating_counterexample :
    lookupA (relayHandleConnect [] "c1" "arena" connA 50).1 "arena" =
      some { id := "arena", members := [("c1", connA)], maxPlayers := 50,
             messageCount := 0 } ∧
    relayHandleMessage relayRoomTwo (RateLimiter.mk0 60) "c1" connA
      (some (.map [("type", .str "state")])) 0 =
      ({ relayRoomTwo with messageCount := 1 },
        { windows := [("c1", [0])], maxMessages := 60 },
        [REffect.send 2 (ServerMsgR.relay "c1" (.map [("type", .str "state")]))]) :=
  ⟨rfl, rfl⟩

/-- C5 (amended: the claim's mode labels are swapped).  On an
authoritative-mode connection the client must send an explicit `join`
before `state`/`chat` are routed: before joining, a `state` frame is
answered with exactly one `NOT_JOINED` error envelope (no close — the
connection stays open), and a `chat` frame or a frame of any other type is
dropped without effects; on a relay-mode connection the router auto-joins
the client at connect time, and when the room is full rejects the
connection outright, closing it with the fixed code 1013. -/
theorem router_join_gating (rooms : List (String × Room))
    (rrooms : List (String × RelayRoom)) (rl : RateLimiter) (meta : Meta) (ws : Conn)
    (kvs : List (String × MValue)) (clientId roomId : String) (rroom : RelayRoom)
    (maxPlayers snapshotHz now : Nat)
    (hallow : (rl.allow meta.clientId now).1 = true)
    (hnj : meta.joined = false) :
    (lookupA kvs "type" = some (.str "state") →
      authHandleMessage rooms rl meta ws (some (.map kvs)) maxPlayers snapshotHz now =
        ((getOrCreateRoom rooms meta.roomId maxPlayers snapshotHz now).2,
          (rl.allow meta.clientId now).2, meta,
          [Effect.send ws.id (ServerMsgA.error ErrorCodes.NOT_JOINED
            "Send a \"join\" message first")])) ∧
    (lookupA kvs "type" = some (.str "chat") →
      (authHandleMessage rooms rl meta ws (some (.map kvs)) maxPlayers snapshotHz
        now).2.2 = (meta, [])) ∧
    (∀ s : String, lookupA kvs "type" = some (.str s) → s ≠ "join" → s ≠ "state" →
      s ≠ "chat" →
      (authHandleMessage rooms rl meta ws (some (.map kvs)) maxPlayers snapshotHz
        now).2.2 = (meta, [])) ∧
    (lookupA rrooms roomId = some rroom → rroom.members.length < rroom.maxPlayers →
      lookupA (relayHandleConnect rrooms clientId roomId ws maxPlayers).1 roomId =
        some { rroom with members := setA rroom.members clientId ws }) ∧
    (lookupA rrooms roomId = some rroom → rroom.maxPlayers ≤ rroom.members.length →
      (relayHandleConnect rrooms clientId roomId ws maxPlayers).2 =
        [REffect.send ws.id (ServerMsgR.error ErrorCodes.ROOM_FULL
          ("Room \"" ++ rroom.id ++ "\" is full (" ++ toString rroom.maxPlayers ++
            " players)")),
         REffect.close ws.id 1013 "Room full"]) := by
  refine ⟨?_, ?_, ?_, ?_, ?_⟩
  · intro htype
    have hdec : decodeMessageAuth (some (.map kvs)) = some (.map kvs) := by
      simp [decodeMessageAuth, MValue.isFalsy, MValue.typeofIsObject,
        MValue.hasTypeKey, htype]
    simp [authHandleMessage, hallow, hdec, htype, hnj]
  · intro htype
    have hdec : decodeMessageAuth (some (.map kvs)) = some (.map kvs) := by
      simp [decodeMessageAuth, MValue.isFalsy, MValue.typeofIsObject,
        MValue.hasTypeKey, htype]
    simp [authHandleMessage, hallow, hdec, htype, hnj]
  · intro s htype hs1 hs2 hs3
    have hdec : decodeMessageAuth (some (.map kvs)) = some (.map kvs) := by
      simp [decodeMessageAuth, MValue.isFalsy, MValue.typeofIsObject,
        MValue.hasTypeKey, htype]
    simp only [authHandleMessage, hallow, Bool.not_true, Bool.false_eq_true, if_false,
      hdec, htype]
    split
    · simp_all
    · simp_all
    · simp_all
    · rfl
  · intro hlk hlt
    have hfull : ¬ rroom.maxPlayers ≤ rroom.members.length := by omega
    simp [relayHandleConnect, hlk, RelayRoom.join, hfull, lookupA_setA_self]
  · intro hlk hge
    simp [relayHandleConnect, hlk, RelayRoom.join, hge]

def metaNine : Meta := { clientId := "c9", roomId := "arena", joined := false }

/-- C5 witness: a concrete pre-join `state` frame on an authoritative
connection draws exactly the `NOT_JOINED` error, and a concrete relay
connect against a full room emits the `ROOM_FULL` envelope and a 1013
close. -/
theorem router_join_gating_witness :
    (authHandleMessage [] (RateLimiter.mk0 60) metaNine connA
      (some (.map [("type", .str "state")])) 50 20 0).2.2.2 =
      [Effect.send 1 (ServerMsgA.error ErrorCodes.NOT_JOINED
        "Send a \"join\" message first")] ∧
    (relayHandleConnect [("arena", relayRoomFull)] "c9" "arena" connA 50).2 =
      [REffect.send 1 (ServerMsgR.error ErrorCodes.ROOM_FULL
        "Room \"arena\" is full (2 players)"),
       REffect.close 1 1013 "Room full"] :=
  ⟨congrArg (fun t => t.2.2.2)
    ((router_join_gating [] [("arena", relayRoomFull)] (RateLimiter.mk0 60) metaNine
      connA [("type", .str "state")] "c9" "arena" relayRoomFull 50 20 0 rfl rfl).1 rfl),
   (router_join_gating [] [("arena", relayRoomFull)] (RateLimiter.mk0 60) metaNine
      connA [("type", .str "state")] "c9" "arena" relayRoomFull 50 20 0 rfl
      rfl).2.2.2.2 rfl (by decide)⟩

end WsGameServer
